import Mathlib

/-!
Verification of the pagination-driven collection engine of the LinkedIn
Applied Jobs Collector, shallowly embedded from src/new-extension/content.js.
Pure page processing (link extraction, canonicalization, deduplication,
pagination detection) is embedded as Lean functions; the stateful collection
loop is embedded as explicit state passing with an event trace recording the
observable effects (storage writes and runtime messages).
-/

namespace JobsCollector

/-- One DOM anchor element as a selector query returns it: only the href
attribute matters to the collector. -/
structure Element where
  href : Option String
deriving DecidableEq

/-- Test that a character list starts with the pattern p. -/
def startsWithChars : List Char → List Char → Bool
  | [], _ => true
  | _ :: _, [] => false
  | p :: ps, c :: cs => p = c && startsWithChars ps cs

/-- Embeds the JavaScript String includes test: the pattern occurs as a
contiguous run of characters. -/
def containsChars (p : List Char) : List Char → Bool
  | [] => startsWithChars p []
  | c :: cs => startsWithChars p (c :: cs) || containsChars p cs

/-- String form of the includes test. -/
def stringIncludes (s pat : String) : Bool :=
  containsChars pat.toList s.toList

/-- Consume the literal pattern at the head of the list, returning the
remainder, or none when the head does not match the pattern. -/
def dropLit : List Char → List Char → Option (List Char)
  | [], rest => some rest
  | _ :: _, [] => none
  | p :: ps, c :: cs => if p = c then dropLit ps cs else none

/-- The literal part of the job-id regex of content.js line 210. -/
def viewMarker : List Char := "/jobs/view/".toList

/-- Embeds one attempt of the regex at a fixed position: the literal marker,
then one or more digits (the captured job id), then a slash. Greedy digit
matching is exact here because the terminating slash is not a digit. -/
def matchIdAt (l : List Char) : Option (List Char) :=
  match dropLit viewMarker l with
  | none => none
  | some rest =>
    match rest.takeWhile Char.isDigit, rest.dropWhile Char.isDigit with
    | d :: ds, c :: _ => if c = '/' then some (d :: ds) else none
    | _, _ => none

/-- Embeds link.match applied to the job-id regex: scan left to right and
return the first captured id, as in content.js line 210. -/
def firstJobId : List Char → Option (List Char)
  | [] => none
  | c :: cs =>
    match matchIdAt (c :: cs) with
    | some ds => some ds
    | none => firstJobId cs

/-- Embeds the fixed canonical URL template of content.js line 215. -/
def jobRef (jid : List Char) : String :=
  "https://www.linkedin.com/jobs/view/" ++ String.mk jid ++ "/"

/-- Embeds the clean-and-deduplicate loop of extractJobLinksFromPage
(content.js lines 204 to 222): entries whose locator has no id match are
dropped, ids already seen are skipped, and each kept id is rebuilt into the
canonical URL. -/
def cleanDedup : List String → List (List Char) → List String
  | [], _ => []
  | link :: rest, seen =>
    match firstJobId link.toList with
    | none => cleanDedup rest seen
    | some jid =>
      if jid ∈ seen then cleanDedup rest seen
      else jobRef jid :: cleanDedup rest (jid :: seen)

/-- The extractor as invoked on a raw locator sequence with an empty seen
set. -/
def extractClean (links : List String) : List String :=
  cleanDedup links []

/-- Embeds the href mapping and filter of one selector strategy
(content.js lines 191 to 194): take the href of each matched element and keep
those containing the jobs marker. -/
def hrefsOf (els : List Element) : List String :=
  (els.filterMap Element.href).filter (fun h => stringIncludes h "jobs/view/")

/-- Embeds the fallback chain over the ordered selector strategies
(content.js lines 188 to 202): the first strategy whose filtered href list is
nonempty supplies all links; later strategies are not consulted. -/
def selectLinks : List (List Element) → List String
  | [] => []
  | els :: rest =>
    let hrefs := hrefsOf els
    if hrefs.length > 0 then hrefs else selectLinks rest

/-- Embeds extractJobLinksFromPage (content.js lines 179 to 228): strategy
selection followed by clean and deduplicate. The page is given as the lists
of elements each selector of the ordered selector list returns. -/
def extractJobLinksFromPage (page : List (List Element)) : List String :=
  cleanDedup (selectLinks page) []

/-- First-occurrence-wins deduplication against a seen accumulator, the
behaviour of inserting a sequence into a JavaScript Set. -/
def firstWins {α : Type} [DecidableEq α] : List α → List α → List α
  | [], _ => []
  | x :: xs, seen =>
    if x ∈ seen then firstWins xs seen else x :: firstWins xs (x :: seen)

theorem matchIdAt_digits (l jid : List Char) (h : matchIdAt l = some jid) :
    jid ≠ [] ∧ ∀ c ∈ jid, c.isDigit := by
  unfold matchIdAt at h
  split at h
  · exact absurd h (by simp)
  · rename_i rest heq
    split at h
    · rename_i d ds c cs ht hw
      split at h
      · simp only [Option.some.injEq] at h
        subst h
        refine ⟨by simp, fun x hx => ?_⟩
        have hx' : x ∈ rest.takeWhile Char.isDigit := by rw [ht]; exact hx
        exact List.mem_takeWhile_imp hx'
      · exact absurd h (by simp)
    · exact absurd h (by simp)

theorem firstJobId_digits :
    ∀ (l jid : List Char), firstJobId l = some jid →
      jid ≠ [] ∧ ∀ c ∈ jid, c.isDigit := by
  intro l
  induction l with
  | nil => intro jid h; exact absurd h (by simp [firstJobId])
  | cons c cs ih =>
    intro jid h
    unfold firstJobId at h
    cases hm : matchIdAt (c :: cs) with
    | some ds =>
      rw [hm] at h
      simp only [Option.some.injEq] at h
      subst h
      exact matchIdAt_digits _ _ hm
    | none => rw [hm] at h; exact ih jid h

theorem cleanDedup_eq_firstWins (links : List String) :
    ∀ seen, cleanDedup links seen
      = (firstWins (links.filterMap fun l => firstJobId l.toList) seen).map jobRef := by
  induction links with
  | nil => intro seen; rfl
  | cons l rest ih =>
    intro seen
    simp only [cleanDedup, List.filterMap_cons]
    cases h : firstJobId l.toList with
    | none => exact ih seen
    | some jid =>
      by_cases hj : jid ∈ seen
      · simp only [firstWins, if_pos hj]
        exact ih seen
      · simp only [firstWins, if_neg hj, List.map_cons]
        rw [ih (jid :: seen)]

theorem mem_firstWins {α : Type} [DecidableEq α] :
    ∀ (xs seen : List α) (y : α), y ∈ firstWins xs seen → y ∈ xs ∧ y ∉ seen := by
  intro xs
  induction xs with
  | nil => intro seen y h; exact absurd h (by simp [firstWins])
  | cons x xs ih =>
    intro seen y h
    unfold firstWins at h
    by_cases hx : x ∈ seen
    · rw [if_pos hx] at h
      have := ih seen y h
      exact ⟨List.mem_cons_of_mem _ this.1, this.2⟩
    · rw [if_neg hx] at h
      rcases List.mem_cons.mp h with rfl | h
      · exact ⟨List.mem_cons_self _ _, hx⟩
      · have := ih (x :: seen) y h
        exact ⟨List.mem_cons_of_mem _ this.1,
          fun hy => this.2 (List.mem_cons_of_mem _ hy)⟩

theorem firstWins_nodup {α : Type} [DecidableEq α] :
    ∀ (xs seen : List α), (firstWins xs seen).Nodup := by
  intro xs
  induction xs with
  | nil => intro seen; simp [firstWins]
  | cons x xs ih =>
    intro seen
    unfold firstWins
    by_cases hx : x ∈ seen
    · rw [if_pos hx]; exact ih seen
    · rw [if_neg hx]
      refine List.nodup_cons.mpr ⟨fun hmem => ?_, ih (x :: seen)⟩
      exact (mem_firstWins _ _ _ hmem).2 (List.mem_cons_self _ _)

theorem jobRef_injective (a b : List Char) (h : jobRef a = jobRef b) : a = b := by
  have hd := congrArg String.data h
  simp only [jobRef, String.data_append, String.mk] at hd
  exact List.append_cancel_left (List.append_cancel_right hd)

/-- Embeds the body of the per-link merge step of collectAllJobLinks
(content.js lines 136 to 141): a JavaScript Set add keyed by the full link
string, preserving insertion order, ignoring links already present. -/
def addLink (s : List String) (l : String) : List String :=
  if l ∈ s then s else s ++ [l]

/-- Embeds the whole merge loop over the links of one page: returns the
grown collected set together with newLinksCount. -/
def mergeLinks : List String → List String → List String × Nat
  | s, [] => (s, 0)
  | s, l :: ls =>
    if l ∈ s then mergeLinks s ls
    else
      let r := mergeLinks (s ++ [l]) ls
      (r.1, r.2 + 1)

theorem extractClean_eq_firstWins (links : List String) :
    extractClean links
      = (firstWins (links.filterMap fun l => firstJobId l.toList) []).map jobRef :=
  cleanDedup_eq_firstWins links []

/-- C5: for every raw locator sequence the extractor drops entries without an
id match, deduplicates by id keeping the first occurrence, and rebuilds every
reference from the id through the fixed canonical template; on the concrete
input of the scenario it returns exactly the two canonical items with ids 111
and 222, tracking stripped. -/
theorem C5_extractor_canonicalizes :
    (∀ links : List String,
        extractClean links
          = (firstWins (links.filterMap fun l => firstJobId l.toList) []).map jobRef)
    ∧ extractClean ["/jobs/view/111/?trk=x", "/jobs/view/111/?trk=y", "/jobs/view/222/"]
        = ["https://www.linkedin.com/jobs/view/111/",
           "https://www.linkedin.com/jobs/view/222/"] :=
  ⟨fun links => extractClean_eq_firstWins links, by decide⟩

/-- C10: every reference the extractor outputs is built by the canonical
template from a nonempty all-digit id, the output ids are pairwise distinct,
and consequently the output references themselves contain no duplicate. -/
theorem C10_output_canonical_nodup (links : List String) :
    ∃ ids : List (List Char),
      extractClean links = ids.map jobRef
      ∧ ids.Nodup
      ∧ (extractClean links).Nodup
      ∧ ∀ jid ∈ ids, jid ≠ [] ∧ ∀ c ∈ jid, c.isDigit := by
  refine ⟨firstWins (links.filterMap fun l => firstJobId l.toList) [],
    extractClean_eq_firstWins links, firstWins_nodup _ _, ?_, ?_⟩
  · rw [extractClean_eq_firstWins links]
    exact (firstWins_nodup _ _).map fun a b hab => jobRef_injective a b hab
  · intro jid hj
    have hmem := (mem_firstWins _ _ _ hj).1
    rcases List.mem_filterMap.mp hmem with ⟨l, _, hfl⟩
    exact firstJobId_digits _ _ hfl

/-- C6: when the first selector strategy yields no link and the second yields
at least one, the harvester output is exactly the pipeline applied to the
links of the second strategy alone; later strategies contribute nothing. -/
theorem C6_fallback_chain (s1 s2 s3 : List Element)
    (h1 : hrefsOf s1 = []) (h2 : hrefsOf s2 ≠ []) :
    extractJobLinksFromPage [s1, s2, s3] = extractClean (hrefsOf s2) := by
  have hsel : selectLinks [s1, s2, s3] = hrefsOf s2 := by
    simp only [selectLinks, h1, List.length_nil, gt_iff_lt, lt_self_iff_false,
      if_false]
    have : (hrefsOf s2).length > 0 := List.length_pos.mpr h2
    simp [this]
  simp only [extractJobLinksFromPage, hsel, extractClean]

/-- The element lists used to witness the fallback-chain theorem: the first
strategy matches an element without href, the second a job link. -/
def elsNoHref : List Element := [{ href := none }]

/-- A second-strategy element list holding one job link. -/
def elsJob : List Element := [{ href := some "https://www.linkedin.com/jobs/view/555/" }]

theorem C6_fallback_chain_witness :
    extractJobLinksFromPage [elsNoHref, elsJob, []] = extractClean (hrefsOf elsJob) :=
  C6_fallback_chain elsNoHref elsJob [] (by decide) (by decide)

/-- C9: merging one canonical item into the collected result set is
idempotent, and an item already present is silently ignored. -/
theorem C9_merge_idempotent :
    (∀ (S : List String) (x : String), addLink (addLink S x) x = addLink S x)
    ∧ (∀ (S : List String) (x : String), x ∈ S → addLink S x = S) := by
  constructor
  · intro S x
    unfold addLink
    by_cases hx : x ∈ S
    · simp [hx]
    · simp [hx]
  · intro S x hx
    unfold addLink
    simp [hx]

theorem C9_merge_idempotent_witness :
    addLink ["https://www.linkedin.com/jobs/view/1/"] "https://www.linkedin.com/jobs/view/1/"
      = ["https://www.linkedin.com/jobs/view/1/"] :=
  C9_merge_idempotent.2 ["https://www.linkedin.com/jobs/view/1/"]
    "https://www.linkedin.com/jobs/view/1/" (by decide)

/-- A candidate next-page button as the DOM reports it: whether it is visible
(offsetParent not null) and enabled (not disabled). -/
structure NextButton where
  visible : Bool
  enabled : Bool
deriving DecidableEq

/-- The pagination container as its DOM queries report it: the next-style
element found inside it (if any), the page number parsed from the element
marked current (default 1 when absent or unparsable, content.js line 318),
and the numeric page button values. -/
structure PagContainer where
  containerNext : Option NextButton
  currentPage : Nat
  pageNumbers : List Nat
deriving DecidableEq

/-- The DOM facts checkForMoreJobs and getPaginationInfo read: the candidate
next buttons the document-level selectors return, in selector order, and the
pagination container when one of the container selectors matches. -/
structure PageDom where
  docNextCandidates : List NextButton
  pagination : Option PagContainer
deriving DecidableEq

/-- The record getPaginationInfo returns. availablePages is absent in the
no-container early return of the source; it is modelled as the empty list,
which no claim observes. -/
structure PaginationInfo where
  hasNext : Bool
  currentPage : Nat
  totalPages : Nat
  availablePages : List Nat
deriving DecidableEq

/-- Embeds getPaginationInfo (content.js lines 298 to 337): without a
container, no next page; otherwise next exists when a next-style element is
present in the container, regardless of visibility or enabledness, or when
some numeric page button exceeds the DOM current page. -/
def getPaginationInfo (d : PageDom) : PaginationInfo :=
  match d.pagination with
  | none => { hasNext := false, currentPage := 1, totalPages := 1, availablePages := [] }
  | some p =>
    let hasNextButton := p.containerNext.isSome
    let hasHigherPage := p.pageNumbers.any fun n => decide (p.currentPage < n)
    let maxPage := p.pageNumbers.foldl max p.currentPage
    { hasNext := hasNextButton || hasHigherPage,
      currentPage := p.currentPage,
      totalPages := maxPage,
      availablePages := p.pageNumbers }

/-- Embeds checkForMoreJobs (content.js lines 262 to 296): first the loop
over the document-level next-button selectors, succeeding on a candidate that
is visible and enabled; otherwise the hasNext of getPaginationInfo. -/
def checkForMoreJobs (d : PageDom) : Bool :=
  if d.docNextCandidates.any (fun b => b.visible && b.enabled) then true
  else (getPaginationInfo d).hasNext

/-- All next-page affordances present on the page: the document-level
candidates and the one inside the pagination container. -/
def nextAffordances (d : PageDom) : List NextButton :=
  d.docNextCandidates ++
    (match d.pagination with
     | some p => p.containerNext.toList
     | none => [])

/-- The three-signal evaluation the claim states, written from its words: a
present, visible and enabled next affordance means more pages; otherwise a
numbered-page affordance exceeding the current page means more pages;
otherwise there are no more pages. -/
def hasNextClaimed (d : PageDom) : Bool :=
  if (nextAffordances d).any (fun b => b.visible && b.enabled) then true
  else if (match d.pagination with
           | some p => p.pageNumbers.any fun n => decide (p.currentPage < n)
           | none => false) then true
  else false

/-- The evaluation the code actually performs, written from the amended
claim: a visible and enabled document-level next affordance means more pages;
otherwise, with a pagination container, a next affordance merely present
inside it, or a numbered-page affordance exceeding the DOM current page,
means more pages; otherwise there are no more pages. -/
def hasNextAmended (d : PageDom) : Bool :=
  if d.docNextCandidates.any (fun b => b.visible && b.enabled) then true
  else
    match d.pagination with
    | none => false
    | some p =>
      if p.containerNext.isSome then true
      else if p.pageNumbers.any (fun n => decide (p.currentPage < n)) then true
      else false

/-- A page whose pagination container holds a next button that is neither
visible nor enabled, with no numbered page beyond the current one. -/
def domDisabledNext : PageDom :=
  { docNextCandidates := [],
    pagination := some { containerNext := some { visible := false, enabled := false },
                         currentPage := 1, pageNumbers := [1] } }

/-- C7 counterexample: on a page whose only next affordance is present but
disabled and invisible, the three-signal evaluation of the claim yields no
more pages, yet checkForMoreJobs reports more pages, because
getPaginationInfo tests mere presence of the container next element. -/
theorem C7_counterexample :
    checkForMoreJobs domDisabledNext = true
    ∧ hasNextClaimed domDisabledNext = false := by decide

/-- C7 amended: checkForMoreJobs equals the amended three-signal evaluation,
whose second signal accepts a next affordance merely present in the
pagination container in addition to a numbered page exceeding the DOM
current page. -/
theorem C7_amended_hasNext (d : PageDom) :
    checkForMoreJobs d = hasNextAmended d := by
  unfold checkForMoreJobs hasNextAmended getPaginationInfo
  cases hp : d.pagination with
  | none => simp
  | some p =>
    by_cases hdoc : d.docNextCandidates.any (fun b => b.visible && b.enabled)
    · simp [hdoc]
    · simp only [hdoc, if_false, Bool.false_eq_true]
      by_cases hbtn : p.containerNext.isSome
      · simp [hbtn]
      · cases h : p.pageNumbers.any (fun n => decide (p.currentPage < n)) with
        | true => simp [hbtn, h]
        | false => simp [hbtn, h]

/-- Observable external effects of the collector: writes to extension
storage and runtime messages. Console logging is not modelled. -/
inductive Ev where
  | setCollecting (b : Bool)
  | saveSnapshot (links : List String)
  | progress (page : Nat) (total : Nat) (count : Nat)
  | completed (count : Nat)
  | errorNote (msg : String)
  | statusNote (msg : String)
deriving DecidableEq

/-- The mutable collector fields the collection claims observe (content.js
lines 9 to 15). The advisory totalPages estimate is carried by the progress
events instead of the state; no claim reads it back. -/
structure CState where
  isCollecting : Bool
  collectedLinks : List String
  currentPage : Nat
  maxPages : Nat
  shouldStop : Bool
deriving DecidableEq

/-- Embeds the constructor defaults of AppliedJobsCollector. -/
def initState : CState :=
  { isCollecting := false, collectedLinks := [], currentPage := 0,
    maxPages := 50, shouldStop := false }

/-- What the page yields to one harvest cycle: the element lists the
extraction selectors return, the advisory total page estimate reported to
the progress message, the result of checkForMoreJobs, and whether
loadMoreJobs manages to advance. -/
structure CycleEnv where
  dom : List (List Element)
  totalPages : Nat
  hasMore : Bool
  advanceOk : Bool

/-- Embeds the while loop of collectAllJobLinks (content.js lines 117 to
172). The fuel argument equals maxPages minus currentPage, so positive fuel
is exactly the loop condition currentPage below maxPages; t counts the
evaluations of the loop condition and stopReq t is the value of shouldStop
read at the t-th evaluation, since stopCollection may set the flag at any
moment between cycle boundaries. -/
def collectLoop (env : Nat → CycleEnv) (stopReq : Nat → Bool) :
    Nat → Nat → CState → CState × List Ev
  | 0, _, s => (s, [])
  | fuel + 1, t, s =>
    if s.shouldStop || stopReq t then (s, [])
    else
      let s1 := { s with currentPage := s.currentPage + 1 }
      let e := env s1.currentPage
      let links := extractJobLinksFromPage e.dom
      let evs0 := [Ev.statusNote ("Processing page " ++ toString s1.currentPage ++ "...")]
      if links = [] then
        (s1, evs0 ++ [Ev.statusNote "No job links found on current page"])
      else
        let m := mergeLinks s1.collectedLinks links
        let s2 := { s1 with collectedLinks := m.1 }
        let evs1 := evs0 ++ [Ev.saveSnapshot m.1,
                             Ev.progress s2.currentPage e.totalPages m.1.length]
        if !e.hasMore then
          (s2, evs1 ++ [Ev.statusNote "Pagination complete"])
        else if !e.advanceOk then
          (s2, evs1 ++ [Ev.statusNote "Failed to load more jobs"])
        else if m.2 = 0 then
          (s2, evs1 ++ [Ev.statusNote "No new links found - might have reached the end"])
        else
          let r := collectLoop env stopReq fuel (t + 1) s2
          (r.1, evs1 ++ r.2)

/-- Embeds collectAllJobLinks (content.js lines 106 to 177): the initial
status messages with the advisory estimate, the page loop, and the
unconditional completion notification after the loop. -/
def collectAllJobLinks (env : Nat → CycleEnv) (stopReq : Nat → Bool)
    (totalEstimate : Nat) (s : CState) : CState × List Ev :=
  let pre :=
    if totalEstimate > 0 then
      [Ev.statusNote "Collecting job links...",
       Ev.statusNote ("Found approximately " ++ toString totalEstimate ++ " applied jobs")]
    else
      [Ev.statusNote "Collecting job links..."]
  let r := collectLoop env stopReq (s.maxPages - s.currentPage) 0 s
  (r.1, pre ++ r.2 ++ [Ev.completed r.1.collectedLinks.length])

/-- Embeds isAppliedJobsPage (content.js lines 101 to 104). -/
def isAppliedJobsPage (url : String) : Bool :=
  stringIncludes url "linkedin.com/my-items/saved-jobs"
    && stringIncludes url "cardType=APPLIED"

/-- Embeds startCollection (content.js lines 60 to 92): the busy guard, the
state reset and the eager persisted isCollecting write, the page
precondition raising inside the try, the error notification in the catch,
and the finally block clearing isCollecting in state and storage. -/
def startCollection (env : Nat → CycleEnv) (stopReq : Nat → Bool)
    (totalEstimate : Nat) (url : String) (s : CState) : CState × List Ev :=
  if s.isCollecting then
    (s, [Ev.statusNote "Collection already in progress"])
  else
    let s1 := { s with isCollecting := true, shouldStop := false, currentPage := 0 }
    let pre := [Ev.statusNote "Starting collection...", Ev.setCollecting true]
    if isAppliedJobsPage url then
      let r := collectAllJobLinks env stopReq totalEstimate s1
      ({ r.1 with isCollecting := false }, pre ++ r.2 ++ [Ev.setCollecting false])
    else
      ({ s1 with isCollecting := false },
       pre ++ [Ev.errorNote "Not on Applied Jobs page. Please navigate to LinkedIn Applied Jobs.",
               Ev.setCollecting false])

/-- Embeds loadExistingData (content.js lines 48 to 58): a stored array is
poured into a JavaScript Set, deduplicating while keeping first
occurrences; an absent key leaves the state untouched. -/
def loadExistingData (stored : Option (List String)) (s : CState) : CState :=
  match stored with
  | none => s
  | some links => { s with collectedLinks := firstWins links [] }

/-- The payload of the last saveSnapshot write in a trace: the persisted
link sequence an external reader observes after the run. -/
def lastSnapshot (evs : List Ev) : Option (List String) :=
  evs.foldl (fun acc e => match e with | Ev.saveSnapshot ls => some ls | _ => acc) none

/-- Whether a trace carries an error notification. -/
def hasError (evs : List Ev) : Bool :=
  evs.any fun e => match e with | Ev.errorNote _ => true | _ => false

/-- The Applied Jobs page URL, satisfying both substring preconditions. -/
def appliedUrl : String :=
  "https://www.linkedin.com/my-items/saved-jobs/?cardType=APPLIED"

/-- An environment in which every cycle yields exactly one fresh job link
and pagination always reports and delivers a further page. -/
def envFresh : Nat → CycleEnv := fun i =>
  { dom := [[{ href := some ("https://www.linkedin.com/jobs/view/" ++ toString i ++ "/") }]],
    totalPages := 0, hasMore := true, advanceOk := true }

/-- A stop request arriving while cycle 2 is in flight: the flag reads false
at the first two loop-condition checks and true from the third on. -/
def stopDuringCycle2 : Nat → Bool := fun t => decide (2 ≤ t)

/-- A run during which stopCollection is never invoked. -/
def noStop : Nat → Bool := fun _ => false

theorem mergeLinks_all_mem :
    ∀ (ls s : List String), (∀ l ∈ ls, l ∈ s) → mergeLinks s ls = (s, 0) := by
  intro ls
  induction ls with
  | nil => intro s _; rfl
  | cons l ls ih =>
    intro s h
    have hl : l ∈ s := h l (List.mem_cons_self _ _)
    simp only [mergeLinks, if_pos hl]
    exact ih s fun x hx => h x (List.mem_cons_of_mem _ hx)

theorem collectLoop_currentPage_le (env : Nat → CycleEnv) (stopReq : Nat → Bool) :
    ∀ (fuel t : Nat) (s : CState),
      (collectLoop env stopReq fuel t s).1.currentPage ≤ s.currentPage + fuel := by
  intro fuel
  induction fuel with
  | zero => intro t s; simp [collectLoop]
  | succ n ih =>
    intro t s
    simp only [collectLoop]
    split
    · simp
    · split
      · simp
      · split
        · simp
        · split
          · simp
          · split
            · simp
            · dsimp only
              exact Nat.le_trans (ih (t + 1) _) (by dsimp only; omega)

theorem collectLoop_no_progress (env : Nat → CycleEnv) (stopReq : Nat → Bool)
    (n t : Nat) (s : CState)
    (hstop : s.shouldStop = false) (hstopt : stopReq t = false)
    (hne : extractJobLinksFromPage (env (s.currentPage + 1)).dom ≠ [])
    (hseen : ∀ l ∈ extractJobLinksFromPage (env (s.currentPage + 1)).dom,
        l ∈ s.collectedLinks) :
    (collectLoop env stopReq (n + 1) t s).1 = { s with currentPage := s.currentPage + 1 }
    ∧ ∃ msg : String,
        (collectLoop env stopReq (n + 1) t s).2
          = [Ev.statusNote ("Processing page " ++ toString (s.currentPage + 1) ++ "..."),
             Ev.saveSnapshot s.collectedLinks,
             Ev.progress (s.currentPage + 1) (env (s.currentPage + 1)).totalPages
               s.collectedLinks.length,
             Ev.statusNote msg] := by
  have hmerge := mergeLinks_all_mem _ _ hseen
  simp only [collectLoop, hstop, hstopt, Bool.or_self, Bool.false_eq_true, if_false,
    if_neg hne, hmerge]
  cases hm : (env (s.currentPage + 1)).hasMore with
  | false => exact ⟨rfl, "Pagination complete", rfl⟩
  | true =>
    cases ha : (env (s.currentPage + 1)).advanceOk with
    | false => exact ⟨rfl, "Failed to load more jobs", rfl⟩
    | true => exact ⟨rfl, "No new links found - might have reached the end", rfl⟩

/-- C8: when the cycle entered from state s harvests a nonempty set of links
all of which are already collected, the run ends with that cycle: the final
page index is one past s, the collected set is unchanged, a completion
notification with the unchanged count is emitted and no error notification
occurs. -/
theorem C8_no_progress_completed (env : Nat → CycleEnv) (stopReq : Nat → Bool)
    (est : Nat) (s : CState)
    (hrun : s.currentPage < s.maxPages)
    (hstop : s.shouldStop = false)
    (hstop0 : stopReq 0 = false)
    (hne : extractJobLinksFromPage (env (s.currentPage + 1)).dom ≠ [])
    (hseen : ∀ l ∈ extractJobLinksFromPage (env (s.currentPage + 1)).dom,
        l ∈ s.collectedLinks) :
    (collectAllJobLinks env stopReq est s).1.currentPage = s.currentPage + 1
    ∧ (collectAllJobLinks env stopReq est s).1.collectedLinks = s.collectedLinks
    ∧ Ev.completed s.collectedLinks.length ∈ (collectAllJobLinks env stopReq est s).2
    ∧ hasError (collectAllJobLinks env stopReq est s).2 = false := by
  obtain ⟨n, hn⟩ : ∃ n, s.maxPages - s.currentPage = n + 1 :=
    ⟨s.maxPages - s.currentPage - 1, by omega⟩
  obtain ⟨hst, msg, htr⟩ := collectLoop_no_progress env stopReq n 0 s hstop hstop0 hne hseen
  simp only [collectAllJobLinks, hn, hst, htr]
  by_cases he : est > 0 <;> simp [he, hasError]

/-- A no-progress witness state: one job link already collected. -/
def seenState : CState :=
  { initState with collectedLinks := ["https://www.linkedin.com/jobs/view/9/"] }

/-- An environment whose every page carries only the already-collected
link. -/
def envSeen : Nat → CycleEnv := fun _ =>
  { dom := [[{ href := some "https://www.linkedin.com/jobs/view/9/" }]],
    totalPages := 0, hasMore := true, advanceOk := true }

theorem C8_no_progress_completed_witness :
    (collectAllJobLinks envSeen noStop 0 seenState).1.currentPage = seenState.currentPage + 1
    ∧ (collectAllJobLinks envSeen noStop 0 seenState).1.collectedLinks = seenState.collectedLinks
    ∧ Ev.completed seenState.collectedLinks.length ∈ (collectAllJobLinks envSeen noStop 0 seenState).2
    ∧ hasError (collectAllJobLinks envSeen noStop 0 seenState).2 = false :=
  C8_no_progress_completed envSeen noStop 0 seenState (by decide) (by decide)
    (by decide) (by decide) (by decide)

/-- The run of the scenario of C1: an unbounded collection started on the
Applied Jobs page, with a stop request arriving while cycle 2 is in
flight. -/
def stoppedRun : CState × List Ev :=
  startCollection envFresh stopDuringCycle2 0 appliedUrl initState

/-- C1 counterexample: in the stop-during-cycle-2 scenario the code does
emit a completion notification, since notifyComplete is called
unconditionally after the loop, against the claim that none is emitted. -/
theorem C1_counterexample_completed_emitted :
    stoppedRun.1.currentPage = 2 ∧ Ev.completed 2 ∈ stoppedRun.2 := by decide

/-- C1 amended: a stop requested while cycle 2 is in flight lets cycle 2
finish and persist its merged results, prevents cycle 3 from starting, and
returns the session to idle with no error, but a completion notification is
emitted anyway because notifyComplete runs unconditionally after the loop. -/
theorem C1_amended_stop_behaviour :
    stoppedRun.1.currentPage = 2
    ∧ lastSnapshot stoppedRun.2
        = some ["https://www.linkedin.com/jobs/view/1/",
                "https://www.linkedin.com/jobs/view/2/"]
    ∧ stoppedRun.1.isCollecting = false
    ∧ Ev.completed 2 ∈ stoppedRun.2
    ∧ hasError stoppedRun.2 = false := by decide

/-- An idle state carrying the page index of an earlier run. -/
def staleState : CState := { initState with currentPage := 7 }

/-- A URL that is not the Applied Jobs page. -/
def otherUrl : String := "https://example.com/"

/-- C2 counterexample: starting on a non-collectible page does mutate
observable state, against the claim that nothing is mutated: the persisted
isCollecting flag is written true before the page check, and the session
page index is reset. -/
theorem C2_counterexample_state_mutated :
    Ev.setCollecting true ∈ (startCollection envFresh noStop 0 otherUrl staleState).2
    ∧ (startCollection envFresh noStop 0 otherUrl staleState).1.currentPage
        ≠ staleState.currentPage := by decide

/-- C2 amended: started on a non-collectible page from an idle session, the
collector notifies the descriptive error and finishes idle with the
collected set untouched and no snapshot written, but only after resetting
currentPage and shouldStop and transiently writing isCollecting true to
storage. -/
theorem C2_amended_precondition (env : Nat → CycleEnv) (stopReq : Nat → Bool)
    (est : Nat) (url : String) (s : CState)
    (hidle : s.isCollecting = false) (hurl : isAppliedJobsPage url = false) :
    startCollection env stopReq est url s
      = ({ s with isCollecting := false, shouldStop := false, currentPage := 0 },
         [Ev.statusNote "Starting collection...", Ev.setCollecting true,
          Ev.errorNote "Not on Applied Jobs page. Please navigate to LinkedIn Applied Jobs.",
          Ev.setCollecting false]) := by
  simp [startCollection, hidle, hurl]

theorem C2_amended_precondition_witness :
    startCollection envFresh noStop 0 otherUrl staleState
      = ({ staleState with isCollecting := false, shouldStop := false, currentPage := 0 },
         [Ev.statusNote "Starting collection...", Ev.setCollecting true,
          Ev.errorNote "Not on Applied Jobs page. Please navigate to LinkedIn Applied Jobs.",
          Ev.setCollecting false]) :=
  C2_amended_precondition envFresh noStop 0 otherUrl staleState rfl (by decide)

/-- The run of the scenario of C3: page limit three, every cycle one fresh
link, pagination always willing to continue. -/
def cappedRun : CState × List Ev :=
  collectAllJobLinks envFresh noStop 0 { initState with maxPages := 3 }

/-- C3: the loop never drives the page index past the configured limit,
whatever the environment and stop requests do; and in the scenario with
limit three and always-available next pages, exactly three cycles run, the
result set has three items, and the run completes without error. -/
theorem C3_page_limit_ceiling :
    (∀ (env : Nat → CycleEnv) (stopReq : Nat → Bool) (est : Nat) (s : CState),
        s.currentPage = 0 →
        (collectAllJobLinks env stopReq est s).1.currentPage ≤ s.maxPages)
    ∧ (cappedRun.1.currentPage = 3
       ∧ cappedRun.1.collectedLinks.length = 3
       ∧ Ev.completed 3 ∈ cappedRun.2
       ∧ hasError cappedRun.2 = false) := by
  constructor
  · intro env stopReq est s h0
    have h := collectLoop_currentPage_le env stopReq (s.maxPages - s.currentPage) 0 s
    simp only [collectAllJobLinks]
    omega
  · decide

theorem C3_page_limit_ceiling_witness :
    (collectAllJobLinks envFresh noStop 0 { initState with maxPages := 3 }).1.currentPage
      ≤ ({ initState with maxPages := 3 } : CState).maxPages :=
  C3_page_limit_ceiling.1 envFresh noStop 0 { initState with maxPages := 3 } rfl

/-- The three canonical references of the resume scenario of C4. -/
def refA : String := "https://www.linkedin.com/jobs/view/111/"

/-- Second canonical reference of the resume scenario. -/
def refB : String := "https://www.linkedin.com/jobs/view/222/"

/-- Third canonical reference of the resume scenario. -/
def refC : String := "https://www.linkedin.com/jobs/view/333/"

/-- An environment whose single page yields the second and third references
and reports no further pages. -/
def envResume : Nat → CycleEnv := fun _ =>
  { dom := [[{ href := some refB }, { href := some refC }]],
    totalPages := 0, hasMore := false, advanceOk := true }

/-- The run of the resume scenario of C4: items a and b persisted from an
earlier run are loaded, then one cycle harvests b and c. -/
def resumeRun : CState × List Ev :=
  startCollection envResume noStop 0 appliedUrl
    (loadExistingData (some [refA, refB]) initState)

/-- C4: resuming from a persisted snapshot holding a and b, a start followed
by one cycle harvesting b and c leaves the persisted snapshot and the
collected set equal to a, b, c in first-seen order, with no error. -/
theorem C4_resume_first_seen_order :
    lastSnapshot resumeRun.2 = some [refA, refB, refC]
    ∧ resumeRun.1.collectedLinks = [refA, refB, refC]
    ∧ hasError resumeRun.2 = false := by decide

end JobsCollector
